import Mathlib

/-!
Verification of the farcaster-core protocol library.

The development shallowly embeds the Rust sources:
* `core/src/transaction.rs` (the `TxId` enum and its consensus codec),
* `core/src/crypto.rs` (`KeyType`, `SignatureType`, `Commitment::validate`),
* `core/src/protocol_message.rs` (commit/reveal parameter messages),
* `chains/src/bitcoin/fee.rs` (`set_fee`),
* `chains/src/bitcoin/transaction/cancel.rs` (`Tx<Cancel>` finalize and
  its constructor).

Machine integers are `Nat` with explicit `% 2 ^ 64` where u64 overflow
matters.  Fallible Rust functions return `Except`; functions mutating a
`&mut` argument are state passing and also return the post state.
External library calls (transaction weight, SHA-256, secp256k1 public-key
parsing) are function parameters of the embedding, universally quantified
in the theorems.
-/

namespace Farcaster

/-- Error type of `core/src/consensus.rs` (only the variants the embedded
sources use).  Modelled from the spec: the consensus module itself is not
among the provided files; §7 lists `TypeMismatch`, `ParseFailed`,
`UnknownType` as the protocol error kinds. -/
inductive ConsensusError
  | TypeMismatch
  | UnknownType
  | ParseFailed
deriving DecidableEq, Repr

/-- The six transaction identifiers of `core/src/transaction.rs`. -/
inductive TxId
  | Funding
  | Lock
  | Buy
  | Cancel
  | Refund
  | Punish
deriving DecidableEq, Repr

/-- Little-endian 2-byte encoding of a u16, as the consensus codec writes
primitive integers (spec §4.1: little-endian, fixed width). -/
def u16EncodeLE (n : Nat) : List Nat :=
  [n % 256, n / 256 % 256]

/-- Reading a u16 from a byte stream: two little-endian bytes, error if the
stream is too short. -/
def u16DecodeLE : List Nat → Except ConsensusError (Nat × List Nat)
  | b0 :: b1 :: rest => .ok (b0 + 256 * b1, rest)
  | _ => .error .ParseFailed

/-- `Encodable for TxId` of `core/src/transaction.rs`: each variant writes
its 2-byte tag. -/
def TxId.consensus_encode : TxId → List Nat
  | .Funding => u16EncodeLE 0x01
  | .Lock => u16EncodeLE 0x02
  | .Buy => u16EncodeLE 0x03
  | .Cancel => u16EncodeLE 0x04
  | .Refund => u16EncodeLE 0x05
  | .Punish => u16EncodeLE 0x06

/-- `Decodable for TxId` of `core/src/transaction.rs`: read a u16, match the
six known tags, any other value is `UnknownType`. -/
def TxId.consensus_decode (bytes : List Nat) :
    Except ConsensusError (TxId × List Nat) :=
  match u16DecodeLE bytes with
  | .error e => .error e
  | .ok (n, rest) =>
    if n = 0x01 then .ok (.Funding, rest)
    else if n = 0x02 then .ok (.Lock, rest)
    else if n = 0x03 then .ok (.Buy, rest)
    else if n = 0x04 then .ok (.Cancel, rest)
    else if n = 0x05 then .ok (.Refund, rest)
    else if n = 0x06 then .ok (.Punish, rest)
    else .error .UnknownType

/-- `SignatureType` of `core/src/crypto.rs`, generic over the adaptor
signature type `α` and the regular signature type `σ` of the arbitrating
chain. -/
inductive SignatureType (α σ : Type)
  | Adaptor (sig : α)
  | Adapted (sig : σ)
  | Regular (sig : σ)
deriving DecidableEq

/-- `SignatureType::try_into_adaptor` of `core/src/crypto.rs`. -/
def SignatureType.try_into_adaptor {α σ : Type} :
    SignatureType α σ → Except ConsensusError α
  | .Adaptor sig => .ok sig
  | _ => .error .TypeMismatch

/-- `SignatureType::try_into_adapted` of `core/src/crypto.rs`. -/
def SignatureType.try_into_adapted {α σ : Type} :
    SignatureType α σ → Except ConsensusError σ
  | .Adapted sig => .ok sig
  | _ => .error .TypeMismatch

/-- `SignatureType::try_into_regular` of `core/src/crypto.rs`. -/
def SignatureType.try_into_regular {α σ : Type} :
    SignatureType α σ → Except ConsensusError σ
  | .Regular sig => .ok sig
  | _ => .error .TypeMismatch

/-- The `Swap` context: the associated types and capabilities that
`core/src/crypto.rs` and `core/src/protocol_message.rs` are generic over.
The commitment equality `commEq` models the derived `PartialEq` of the
`Commitment` associated type (hence `commEq_iff`); `dleqVerify` models the
`DleqProof::verify` trait call, whose failure the spec (§4.2) fixes to
`InvalidProof`. -/
structure Swap where
  ArPub : Type
  AcPub : Type
  ShPriv : Type
  Commitment : Type
  Proof : Type
  Addr : Type
  arAsBytes : ArPub → List Nat
  acAsBytes : AcPub → List Nat
  shAsBytes : ShPriv → List Nat
  commit_to : List Nat → Commitment
  commEq : Commitment → Commitment → Bool
  commEq_iff : ∀ a b, commEq a b = true ↔ a = b
  dleqVerify : AcPub → ArPub → Proof → Bool

/-- `KeyType` of `core/src/crypto.rs`: a public key of the arbitrating or
accordant chain, or a shareable private key. -/
inductive KeyType (Ctx : Swap)
  | PublicArbitrating (key : Ctx.ArPub)
  | PublicAccordant (key : Ctx.AcPub)
  | SharedPrivate (key : Ctx.ShPriv)

/-- `KeyType::try_into_arbitrating_pubkey` of `core/src/crypto.rs`. -/
def KeyType.try_into_arbitrating_pubkey {Ctx : Swap} :
    KeyType Ctx → Except ConsensusError Ctx.ArPub
  | .PublicArbitrating key => .ok key
  | _ => .error .TypeMismatch

/-- `KeyType::try_into_accordant_pubkey` of `core/src/crypto.rs`. -/
def KeyType.try_into_accordant_pubkey {Ctx : Swap} :
    KeyType Ctx → Except ConsensusError Ctx.AcPub
  | .PublicAccordant key => .ok key
  | _ => .error .TypeMismatch

/-- `KeyType::try_into_shared_private` of `core/src/crypto.rs`. -/
def KeyType.try_into_shared_private {Ctx : Swap} :
    KeyType Ctx → Except ConsensusError Ctx.ShPriv
  | .SharedPrivate key => .ok key
  | _ => .error .TypeMismatch

/-- `KeyType::as_bytes` of `core/src/crypto.rs`: the canonical byte form of
the contained key. -/
def KeyType.as_bytes {Ctx : Swap} : KeyType Ctx → List Nat
  | .PublicArbitrating key => Ctx.arAsBytes key
  | .PublicAccordant key => Ctx.acAsBytes key
  | .SharedPrivate key => Ctx.shAsBytes key

/-- `Error` of `core/src/crypto.rs` (the `Other` payload is reduced to a
string tag). -/
inductive CryptoError
  | InvalidSignature
  | InvalidAdaptorSignature
  | InvalidProof
  | InvalidCommitment
  | Other (msg : String)
deriving DecidableEq, Repr

/-- `Commitment::validate` of `core/src/crypto.rs`: recompute the commitment
of the value and compare with the stored one; a mismatch is
`InvalidCommitment`. -/
def validate (Ctx : Swap) (value : List Nat) (commitment : Ctx.Commitment) :
    Except CryptoError Unit :=
  if Ctx.commEq (Ctx.commit_to value) commitment then .ok ()
  else .error .InvalidCommitment

/-- The `DleqProof::verify` call as `CommitAliceParameters::verify` performs
it.  Modelled from the spec: the proof system is an external capability and
§4.2 fixes `verify(spend, adaptor, proof) → ok | InvalidProof`. -/
def dleqCheck (Ctx : Swap) (spend : Ctx.AcPub) (adaptor : Ctx.ArPub)
    (proof : Ctx.Proof) : Except CryptoError Unit :=
  if Ctx.dleqVerify spend adaptor proof then .ok ()
  else .error .InvalidProof

/-- `datum::Parameter`.  Modelled from the spec: the datum module is not
among the provided files; §C8 describes typed records of addresses,
timelocks and fees, and `protocol_message.rs` reads only the address via
`try_into_address`. -/
inductive Parameter (Ctx : Swap)
  | address (addr : Ctx.Addr)
  | timelock (t : Nat)

/-- `datum::Parameter::try_into_address` as `RevealAliceParameters::from_bundle`
calls it.  Modelled from the spec: a non-address datum is a `TypeMismatch`. -/
def Parameter.try_into_address {Ctx : Swap} :
    Parameter Ctx → Except ConsensusError Ctx.Addr
  | .address addr => .ok addr
  | _ => .error .TypeMismatch

/-- `bundle::AliceParameters`.  Modelled from the spec (§3, parameter
bundle of Alice): the bundle module is not among the provided files.  A
`datum::Key` is represented by the `KeyType` its `key()` accessor returns;
the optional negotiated fields (`cancel_timelock`, `punish_timelock`,
`fee_strategy`), which no embedded function reads, are carried as the two
optional timelocks. -/
structure AliceParameters (Ctx : Swap) where
  buy : KeyType Ctx
  cancel : KeyType Ctx
  refund : KeyType Ctx
  punish : KeyType Ctx
  adaptor : KeyType Ctx
  destination_address : Parameter Ctx
  spend : KeyType Ctx
  view : KeyType Ctx
  proof : Ctx.Proof
  cancel_timelock : Option Nat
  punish_timelock : Option Nat

/-- `bundle::BobParameters`.  Modelled from the spec: same as Alice's bundle
minus `punish`, with `refund_address` in place of `destination_address`. -/
structure BobParameters (Ctx : Swap) where
  buy : KeyType Ctx
  cancel : KeyType Ctx
  refund : KeyType Ctx
  adaptor : KeyType Ctx
  refund_address : Parameter Ctx
  spend : KeyType Ctx
  view : KeyType Ctx
  proof : Ctx.Proof
  cancel_timelock : Option Nat
  punish_timelock : Option Nat

/-- `CommitAliceParameters` of `core/src/protocol_message.rs`: the seven
commitments of Alice's setup. -/
structure CommitAliceParameters (Ctx : Swap) where
  buy : Ctx.Commitment
  cancel : Ctx.Commitment
  refund : Ctx.Commitment
  punish : Ctx.Commitment
  adaptor : Ctx.Commitment
  spend : Ctx.Commitment
  view : Ctx.Commitment

/-- `CommitBobParameters` of `core/src/protocol_message.rs`: the six
commitments of Bob's setup (no punish). -/
structure CommitBobParameters (Ctx : Swap) where
  buy : Ctx.Commitment
  cancel : Ctx.Commitment
  refund : Ctx.Commitment
  adaptor : Ctx.Commitment
  spend : Ctx.Commitment
  view : Ctx.Commitment

/-- `RevealAliceParameters` of `core/src/protocol_message.rs`. -/
structure RevealAliceParameters (Ctx : Swap) where
  buy : Ctx.ArPub
  cancel : Ctx.ArPub
  refund : Ctx.ArPub
  punish : Ctx.ArPub
  adaptor : Ctx.ArPub
  address : Ctx.Addr
  spend : Ctx.AcPub
  view : Ctx.ShPriv
  proof : Ctx.Proof

/-- `RevealBobParameters` of `core/src/protocol_message.rs`. -/
structure RevealBobParameters (Ctx : Swap) where
  buy : Ctx.ArPub
  cancel : Ctx.ArPub
  refund : Ctx.ArPub
  adaptor : Ctx.ArPub
  address : Ctx.Addr
  spend : Ctx.AcPub
  view : Ctx.ShPriv
  proof : Ctx.Proof

/-- `CommitAliceParameters::from_bundle` of `core/src/protocol_message.rs`:
commit to the canonical bytes of every key of the bundle. -/
def CommitAliceParameters.from_bundle {Ctx : Swap}
    (bundle : AliceParameters Ctx) : CommitAliceParameters Ctx where
  buy := Ctx.commit_to bundle.buy.as_bytes
  cancel := Ctx.commit_to bundle.cancel.as_bytes
  refund := Ctx.commit_to bundle.refund.as_bytes
  punish := Ctx.commit_to bundle.punish.as_bytes
  adaptor := Ctx.commit_to bundle.adaptor.as_bytes
  spend := Ctx.commit_to bundle.spend.as_bytes
  view := Ctx.commit_to bundle.view.as_bytes

/-- `CommitBobParameters::from_bundle` of `core/src/protocol_message.rs`. -/
def CommitBobParameters.from_bundle {Ctx : Swap}
    (bundle : BobParameters Ctx) : CommitBobParameters Ctx where
  buy := Ctx.commit_to bundle.buy.as_bytes
  cancel := Ctx.commit_to bundle.cancel.as_bytes
  refund := Ctx.commit_to bundle.refund.as_bytes
  adaptor := Ctx.commit_to bundle.adaptor.as_bytes
  spend := Ctx.commit_to bundle.spend.as_bytes
  view := Ctx.commit_to bundle.view.as_bytes

/-- `RevealAliceParameters::from_bundle` of `core/src/protocol_message.rs`:
narrow every datum to the expected variant, failing with `TypeMismatch`
otherwise. -/
def RevealAliceParameters.from_bundle {Ctx : Swap}
    (bundle : AliceParameters Ctx) :
    Except ConsensusError (RevealAliceParameters Ctx) := do
  let buy ← bundle.buy.try_into_arbitrating_pubkey
  let cancel ← bundle.cancel.try_into_arbitrating_pubkey
  let refund ← bundle.refund.try_into_arbitrating_pubkey
  let punish ← bundle.punish.try_into_arbitrating_pubkey
  let adaptor ← bundle.adaptor.try_into_arbitrating_pubkey
  let address ← bundle.destination_address.try_into_address
  let spend ← bundle.spend.try_into_accordant_pubkey
  let view ← bundle.view.try_into_shared_private
  pure ⟨buy, cancel, refund, punish, adaptor, address, spend, view, bundle.proof⟩

/-- `RevealBobParameters::from_bundle` of `core/src/protocol_message.rs`. -/
def RevealBobParameters.from_bundle {Ctx : Swap}
    (bundle : BobParameters Ctx) :
    Except ConsensusError (RevealBobParameters Ctx) := do
  let buy ← bundle.buy.try_into_arbitrating_pubkey
  let cancel ← bundle.cancel.try_into_arbitrating_pubkey
  let refund ← bundle.refund.try_into_arbitrating_pubkey
  let adaptor ← bundle.adaptor.try_into_arbitrating_pubkey
  let address ← bundle.refund_address.try_into_address
  let spend ← bundle.spend.try_into_accordant_pubkey
  let view ← bundle.view.try_into_shared_private
  pure ⟨buy, cancel, refund, adaptor, address, spend, view, bundle.proof⟩

/-- `CommitAliceParameters::verify` of `core/src/protocol_message.rs`:
validate every revealed value against its commitment, then check the DLEQ
proof. -/
def CommitAliceParameters.verify {Ctx : Swap}
    (commit : CommitAliceParameters Ctx) (reveal : RevealAliceParameters Ctx) :
    Except CryptoError Unit := do
  validate Ctx (Ctx.arAsBytes reveal.buy) commit.buy
  validate Ctx (Ctx.arAsBytes reveal.cancel) commit.cancel
  validate Ctx (Ctx.arAsBytes reveal.refund) commit.refund
  validate Ctx (Ctx.arAsBytes reveal.punish) commit.punish
  validate Ctx (Ctx.arAsBytes reveal.adaptor) commit.adaptor
  validate Ctx (Ctx.acAsBytes reveal.spend) commit.spend
  validate Ctx (Ctx.shAsBytes reveal.view) commit.view
  dleqCheck Ctx reveal.spend reveal.adaptor reveal.proof

/-- `CommitBobParameters::verify` of `core/src/protocol_message.rs`. -/
def CommitBobParameters.verify {Ctx : Swap}
    (commit : CommitBobParameters Ctx) (reveal : RevealBobParameters Ctx) :
    Except CryptoError Unit := do
  validate Ctx (Ctx.arAsBytes reveal.buy) commit.buy
  validate Ctx (Ctx.arAsBytes reveal.cancel) commit.cancel
  validate Ctx (Ctx.arAsBytes reveal.refund) commit.refund
  validate Ctx (Ctx.arAsBytes reveal.adaptor) commit.adaptor
  validate Ctx (Ctx.acAsBytes reveal.spend) commit.spend
  validate Ctx (Ctx.shAsBytes reveal.view) commit.view
  dleqCheck Ctx reveal.spend reveal.adaptor reveal.proof

namespace Bitcoin

/-- `Error` of `core/src/transaction.rs`-level transaction processing as
`chains/src/bitcoin/transaction/cancel.rs` uses it (`FError` there).  The
spec (§7) lists the transaction error kinds; chain-level errors wrapped by
`Error::new` / `Error::from` are collapsed into `Wrapped`. -/
inductive FError
  | MissingWitness
  | MissingPublicKey
  | MissingSignature
  | MissingSigHashType
  | MultiUTXOUnsupported
  | Wrapped
deriving DecidableEq, Repr

/-- `FeeStrategy<SatPerVByte>` of the core blockchain module.  Modelled from
the spec (§4.5): `Fixed(rate)` or `Range{lo, hi}`, rates in satoshi per
virtual byte (the `SatPerVByte` newtype over the u64 `Amount`). -/
inductive FeeStrategy
  | Fixed (sat_per_vbyte : Nat)
  | Range (lo hi : Nat)
deriving DecidableEq, Repr

/-- `FeePolitic` of the core blockchain module.  Modelled from the spec
(§4.5); the exhaustive match in `fee.rs` shows exactly these two variants. -/
inductive FeePolitic
  | Aggressive
  | Conservative
deriving DecidableEq, Repr

/-- `FeeStrategyError` of the core blockchain module.  Modelled from the
spec (§7 fee errors); `Wrapped` stands for `FeeStrategyError::new(e)` with a
wrapped transaction error, as `fee.rs` uses for `MultiUTXOUnsuported`. -/
inductive FeeStrategyError
  | MissingInputsMetadata
  | AmountOfFeeTooHigh
  | NotEnoughAssets
  | Wrapped (e : FError)
deriving DecidableEq, Repr

/-- One u64 past the largest: u64 arithmetic overflows at this bound. -/
def u64Size : Nat := 2 ^ 64

/-- `u64::checked_mul`: `none` exactly when the mathematical product does
not fit a u64. -/
def checkedMul (a b : Nat) : Option Nat :=
  if a * b < u64Size then some (a * b) else none

/-- A parsed Bitcoin script instruction, as rust-bitcoin's
`Script::instructions()` yields them: a data push or a plain opcode. -/
inductive Instr
  | pushBytes (bytes : List Nat)
  | op (code : Nat)
deriving DecidableEq, Repr

/-- A script in parsed form. -/
abbrev Script := List Instr

def OP_IF : Nat := 0x63
def OP_ELSE : Nat := 0x67
def OP_ENDIF : Nat := 0x68
def OP_DROP : Nat := 0x75
def OP_PUSHNUM_2 : Nat := 0x52
def OP_CHECKMULTISIG : Nat := 0xae
def OP_CHECKSIG : Nat := 0xac
def OP_CSV : Nat := 0xb2

/-- The little-endian base-256 digits of `n` (empty for zero). -/
def natLeBytes (n : Nat) : List Nat :=
  if h : n = 0 then []
  else (n % 256) :: natLeBytes (n / 256)
decreasing_by exact Nat.div_lt_self (Nat.pos_of_ne_zero h) (by omega)

/-- Bitcoin's minimal script-number encoding of a non-negative integer:
little-endian bytes with a zero byte appended when the top bit would read
as a sign. -/
def scriptNum (n : Nat) : List Nat :=
  let bytes := natLeBytes n
  if 0x80 ≤ bytes.getLastD 0 then bytes ++ [0] else bytes

/-- rust-bitcoin's `Builder::push_int`: the one-opcode forms for 0..16,
the script-number push otherwise (the embedding is used on the u32 CSV
timelock, hence no negative case). -/
def pushInt (n : Nat) : Instr :=
  if n = 0 then .op 0
  else if n ≤ 16 then .op (0x50 + n)
  else .pushBytes (scriptNum n)

/-- Serialization of one instruction as rust-bitcoin writes scripts: data
pushes use the direct length byte or OP_PUSHDATA1/2/4, opcodes are a single
byte. -/
def instrEncode : Instr → List Nat
  | .op code => [code]
  | .pushBytes bytes =>
    if bytes.length < 0x4c then bytes.length :: bytes
    else if bytes.length ≤ 0xff then 0x4c :: bytes.length :: bytes
    else if bytes.length ≤ 0xffff then
      0x4d :: bytes.length % 256 :: bytes.length / 256 :: bytes
    else
      0x4e :: bytes.length % 256 :: bytes.length / 256 % 256 ::
        bytes.length / 2 ^ 16 % 256 :: bytes.length / 2 ^ 24 % 256 :: bytes

/-- `Script::into_bytes`: the byte serialization of the script. -/
def scriptToBytes (s : Script) : List Nat :=
  (s.map instrEncode).flatten

/-- A secp256k1 public key, identified with the canonical bytes
rust-bitcoin's `push_key` writes and `PublicKey::from_slice` parses. -/
abbrev PubKey := List Nat

/-- rust-bitcoin `SigHashType` (the variants relevant to the embedding). -/
inductive SigHashType
  | All
  | Single
  | NoneVariant
deriving DecidableEq, Repr

/-- rust-bitcoin `OutPoint`: reference to a previous transaction output. -/
structure OutPoint where
  txid : List Nat
  vout : Nat
deriving DecidableEq, Repr

/-- rust-bitcoin `TxOut`. -/
structure TxOut where
  value : Nat
  script_pubkey : Script
deriving DecidableEq, Repr

/-- rust-bitcoin `TxIn`. -/
structure TxIn where
  previous_output : OutPoint
  script_sig : Script
  sequence : Nat
  witness : List (List Nat)
deriving DecidableEq, Repr

/-- rust-bitcoin `Transaction`. -/
structure Transaction where
  version : Int
  lock_time : Nat
  input : List TxIn
  output : List TxOut
deriving DecidableEq, Repr

/-- A PSBT input map (BIP 174), per `rust-bitcoin`'s
`psbt::Input`: the fields the embedded code reads or writes.  The
partial-signature map is an association list keyed by public key. -/
structure PsbtInput where
  witness_utxo : Option TxOut
  partial_sigs : List (PubKey × List Nat)
  witness_script : Option Script
  final_script_witness : Option (List (List Nat))
  sighash_type : Option SigHashType
deriving DecidableEq, Repr

instance : Inhabited PsbtInput := ⟨⟨none, [], none, none, none⟩⟩

/-- A PSBT output map: the one field the embedded code writes. -/
structure PsbtOutput where
  witness_script : Option Script
deriving DecidableEq, Repr

/-- `PartiallySignedTransaction` (`global.unsigned_tx` flattened into
`unsigned_tx`). -/
structure Psbt where
  unsigned_tx : Transaction
  inputs : List PsbtInput
  outputs : List PsbtOutput
deriving DecidableEq, Repr

/-- `PartiallySignedTransaction::from_unsigned_tx`: every input must carry
no signature material yet; inputs and outputs get empty maps. -/
def Psbt.from_unsigned_tx (tx : Transaction) : Except FError Psbt :=
  if tx.input.all (fun txin => txin.script_sig = [] ∧ txin.witness = []) then
    .ok ⟨tx, tx.input.map (fun _ => default), tx.output.map (fun _ => ⟨none⟩)⟩
  else .error .Wrapped

/-- The rate `set_fee` uses: the fixed rate, or the range end the politic
selects (`Aggressive` the low end, `Conservative` the high end), as the
match in `chains/src/bitcoin/fee.rs` resolves it. -/
def resolveRate (strategy : FeeStrategy) (politic : FeePolitic) : Nat :=
  match strategy, politic with
  | .Fixed sat_per_vbyte, _ => sat_per_vbyte
  | .Range lo _, .Aggressive => lo
  | .Range _ hi, .Conservative => hi

/-- The witness-utxo of every PSBT input, `none` when any input lacks it:
the `collect` over `psbt_in.witness_utxo.ok_or(MissingInputsMetadata)` of
`fee.rs`. -/
def witnessUtxos (psbt : Psbt) : Option (List TxOut) :=
  psbt.inputs.mapM (fun psbt_in => psbt_in.witness_utxo)

/-- `Fee::set_fee` of `chains/src/bitcoin/fee.rs`, state passing for the
`&mut` PSBT.  `weight` stands for the external
`tx.global.unsigned_tx.get_weight()` call.  The input sum is the u64 sum of
the witness-utxo values; the fee is `rate * weight` under `checked_mul`;
with exactly one output, the fee is deducted from it under `checked_sub`. -/
def set_fee (weight : Transaction → Nat) (tx : Psbt)
    (strategy : FeeStrategy) (politic : FeePolitic) :
    Psbt × Except FeeStrategyError Nat :=
  match witnessUtxos tx with
  | none => (tx, .error .MissingInputsMetadata)
  | some inputs =>
    let input_sum := (inputs.map TxOut.value).sum % u64Size
    let w := weight tx.unsigned_tx
    match checkedMul (resolveRate strategy politic) w with
    | none => (tx, .error .AmountOfFeeTooHigh)
    | some fee_amount =>
      if tx.unsigned_tx.output.length ≠ 1 then
        (tx, .error (.Wrapped .MultiUTXOUnsupported))
      else if input_sum < fee_amount then (tx, .error .NotEnoughAssets)
      else
        (⟨{ tx.unsigned_tx with
              output := tx.unsigned_tx.output.set 0
                { (tx.unsigned_tx.output.headD ⟨0, []⟩) with
                    value := input_sum - fee_amount } },
           tx.inputs, tx.outputs⟩,
         .ok fee_amount)

/-- `script::DoubleKeys`.  Modelled from the spec (§3): the success branch's
pair of public keys. -/
structure DoubleKeys where
  alice : PubKey
  bob : PubKey
deriving DecidableEq, Repr

/-- `script::DataLock`.  Modelled from the spec (§3): timelock plus the
2-of-2 success keys (`timelock` already as its u32 value). -/
structure DataLock where
  timelock : Nat
  success : DoubleKeys
deriving DecidableEq, Repr

/-- `script::DataPunishableLock`.  Modelled from the spec (§3): timelock,
2-of-2 success keys, and the unilateral failure key. -/
structure DataPunishableLock where
  timelock : Nat
  success : DoubleKeys
  failure : PubKey
deriving DecidableEq, Repr

/-- `MetadataOutput` of the bitcoin transaction module: the consumable
output a `Linkable` transaction exposes.  Modelled from the spec (§4.6,
`ConsumableOutput{ outpoint, tx_out, script_pubkey }`); `cancel.rs` moves
`script_pubkey` into the optional PSBT `witness_script` field. -/
structure MetadataOutput where
  out_point : OutPoint
  tx_out : TxOut
  script_pubkey : Option Script
deriving DecidableEq, Repr

/-- The output script `Tx<Cancel>::initialize` builds in
`chains/src/bitcoin/transaction/cancel.rs`:
`IF 2 <alice> <bob> 2 CHECKMULTISIG ELSE <timelock> CSV DROP <failure>
CHECKSIG ENDIF` over the punishable lock's data. -/
def cancelScript (punish_lock : DataPunishableLock) : Script :=
  [.op OP_IF,
   .op OP_PUSHNUM_2,
   .pushBytes punish_lock.success.alice,
   .pushBytes punish_lock.success.bob,
   .op OP_PUSHNUM_2,
   .op OP_CHECKMULTISIG,
   .op OP_ELSE,
   pushInt punish_lock.timelock,
   .op OP_CSV,
   .op OP_DROP,
   .pushBytes punish_lock.failure,
   .op OP_CHECKSIG,
   .op OP_ENDIF]

/-- `Script::to_v0_p2wsh`: `OP_0 <sha256(script bytes)>`; `sha256` stands
for the external hash. -/
def toV0P2wsh (sha256 : List Nat → List Nat) (s : Script) : Script :=
  [.op 0, .pushBytes (sha256 (scriptToBytes s))]

/-- `Cancelable::initialize for Tx<Cancel>` of
`chains/src/bitcoin/transaction/cancel.rs`.  `prev` is the result of
`prev.get_consumable_output()`; the returned `Tx<Cancel>` is its PSBT. -/
def initCancel (sha256 : List Nat → List Nat)
    (prev : Except FError MetadataOutput) (lock : DataLock)
    (punish_lock : DataPunishableLock) : Except FError Psbt := do
  let script := cancelScript punish_lock
  let output_metadata ← prev
  let unsigned_tx : Transaction :=
    { version := 2
      lock_time := 0
      input := [{ previous_output := output_metadata.out_point
                  script_sig := []
                  sequence := lock.timelock
                  witness := [] }]
      output := [{ value := output_metadata.tx_out.value
                   script_pubkey := toV0P2wsh sha256 script }] }
  let psbt ← Psbt.from_unsigned_tx unsigned_tx
  let psbt : Psbt :=
    { psbt with
        inputs := psbt.inputs.set 0
          { (psbt.inputs.headD default) with
              witness_utxo := some output_metadata.tx_out
              witness_script := output_metadata.script_pubkey
              sighash_type := some .All }
        outputs := psbt.outputs.set 0 ⟨some script⟩ }
  pure psbt

/-- Reading one expected public-key instruction during finalization:
absent, non-push, or unparsable bytes are `MissingPublicKey`.  `fromSlice`
stands for the external `PublicKey::from_slice`. -/
def getPubKeyInstr (fromSlice : List Nat → Option PubKey) :
    Option Instr → Except FError PubKey
  | none => .error .MissingPublicKey
  | some (.op _) => .error .MissingPublicKey
  | some (.pushBytes bytes) =>
    match fromSlice bytes with
    | none => .error .MissingPublicKey
    | some key => .ok key

/-- Looking a cosignature up in the partial-signature map:
`partial_sigs.get(&key).ok_or(MissingSignature)`. -/
def getSig (sigs : List (PubKey × List Nat)) (key : PubKey) :
    Except FError (List Nat) :=
  match sigs.lookup key with
  | none => .error .MissingSignature
  | some sig => .ok sig

/-- The witness stack `SubTransaction::finalize for Cancel` computes for
input 0: the two pubkeys are instructions 11 and 12 of the witness script
(`instructions().skip(11).take(2)`), each parsed and looked up in the
partial-signature map; the stack is
`[empty multisig dummy, sig1, sig2, empty OP_FALSE marker, script bytes]`. -/
def cancelWitnessStack (fromSlice : List Nat → Option PubKey)
    (input0 : PsbtInput) : Except FError (List (List Nat)) :=
  match input0.witness_script with
  | none => .error .MissingWitness
  | some script => do
    let key1 ← getPubKeyInstr fromSlice script[11]?
    let sig1 ← getSig input0.partial_sigs key1
    let key2 ← getPubKeyInstr fromSlice script[12]?
    let sig2 ← getSig input0.partial_sigs key2
    pure [[], sig1, sig2, [], scriptToBytes script]

/-- `SubTransaction::finalize for Cancel` of
`chains/src/bitcoin/transaction/cancel.rs`, state passing for the `&mut`
PSBT: on success input 0's `final_script_witness` is set to the computed
stack; on error the PSBT is returned unchanged. -/
def cancelFinalize (fromSlice : List Nat → Option PubKey) (psbt : Psbt) :
    Psbt × Except FError Unit :=
  match cancelWitnessStack fromSlice (psbt.inputs.headD default) with
  | .error e => (psbt, .error e)
  | .ok stack =>
    ({ psbt with
        inputs := psbt.inputs.set 0
          { psbt.inputs.headD default with
              final_script_witness := some stack } },
     .ok ())

/-- A fixture consumable output for the initialization witnesses. -/
def meta0 : MetadataOutput :=
  { out_point := ⟨[7], 1⟩
    tx_out := ⟨123456, [.op 0, .pushBytes [42]]⟩
    script_pubkey := some [.op OP_IF] }

/-- A fixture lock and punishable lock for the initialization witnesses. -/
def lock0 : DataLock := ⟨144, ⟨[2, 1], [2, 2]⟩⟩

def punishLock0 : DataPunishableLock := ⟨288, ⟨[2, 3], [2, 4]⟩, [2, 5]⟩

/-- The PSBT `initCancel` yields at the fixtures (hash function
`fun _ => [9]`). -/
def cancelInit0 : Psbt :=
  { unsigned_tx :=
      { version := 2, lock_time := 0
        input := [{ previous_output := ⟨[7], 1⟩, script_sig := []
                    sequence := 144, witness := [] }]
        output := [{ value := 123456
                     script_pubkey := [.op 0, .pushBytes [9]] }] }
    inputs := [{ witness_utxo := some ⟨123456, [.op 0, .pushBytes [42]]⟩
                 partial_sigs := []
                 witness_script := some [.op OP_IF]
                 final_script_witness := none
                 sighash_type := some .All }]
    outputs := [⟨some (cancelScript punishLock0)⟩] }

/-- A fixture PSBT for the fee witnesses: one input funded with a
10000-satoshi witness utxo, one output. -/
def feeTx0 : Psbt :=
  { unsigned_tx :=
      { version := 2, lock_time := 0
        input := [{ previous_output := ⟨[], 0⟩, script_sig := []
                    sequence := 0, witness := [] }]
        output := [{ value := 0, script_pubkey := [] }] }
    inputs := [{ witness_utxo := some ⟨10000, []⟩, partial_sigs := []
                 witness_script := none, final_script_witness := none
                 sighash_type := none }]
    outputs := [⟨none⟩] }

/-- A fixture lock-shaped witness script: success branch keys `[2,10]`,
`[2,11]`; timelock-branch (cancel) keys `[2,12]`, `[2,13]` at instruction
positions 11 and 12. -/
def lockScript0 : Script :=
  [.op OP_IF, .op OP_PUSHNUM_2, .pushBytes [2, 10], .pushBytes [2, 11],
   .op OP_PUSHNUM_2, .op OP_CHECKMULTISIG, .op OP_ELSE, pushInt 42,
   .op OP_CSV, .op OP_DROP, .op OP_PUSHNUM_2, .pushBytes [2, 12],
   .pushBytes [2, 13], .op OP_PUSHNUM_2, .op OP_CHECKMULTISIG,
   .op OP_ENDIF]

/-- A fixture cancel PSBT ready to finalize: witness script `lockScript0`
and both cosignatures present. -/
def cancelPsbt0 : Psbt :=
  { unsigned_tx :=
      { version := 2, lock_time := 0
        input := [{ previous_output := ⟨[], 0⟩, script_sig := []
                    sequence := 42, witness := [] }]
        output := [{ value := 5000, script_pubkey := [] }] }
    inputs := [{ witness_utxo := some ⟨9000, []⟩
                 partial_sigs := [([2, 12], [71]), ([2, 13], [72])]
                 witness_script := some lockScript0
                 final_script_witness := none
                 sighash_type := some .All }]
    outputs := [⟨none⟩] }

/-- `cancelPsbt0` after a successful finalize. -/
def cancelPsbt0Done : Psbt :=
  { cancelPsbt0 with
      inputs := [{ witness_utxo := some ⟨9000, []⟩
                   partial_sigs := [([2, 12], [71]), ([2, 13], [72])]
                   witness_script := some lockScript0
                   final_script_witness :=
                     some [[], [71], [72], [], scriptToBytes lockScript0]
                   sighash_type := some .All }] }

/-- A fixture PSBT whose single input lacks its witness utxo, so `set_fee`
fails. -/
def feeTxNoMeta : Psbt :=
  { unsigned_tx :=
      { version := 2, lock_time := 0
        input := [{ previous_output := ⟨[], 0⟩, script_sig := []
                    sequence := 0, witness := [] }]
        output := [{ value := 0, script_pubkey := [] }] }
    inputs := [{ witness_utxo := none, partial_sigs := []
                 witness_script := none, final_script_witness := none
                 sighash_type := none }]
    outputs := [⟨none⟩] }

end Bitcoin

/-- A concrete `Swap` context over naturals, used by the witnesses:
commitments are the value's bytes behind a `0` tag, every proof verifies. -/
@[reducible] def NatSwap : Swap where
  ArPub := Nat
  AcPub := Nat
  ShPriv := Nat
  Commitment := List Nat
  Proof := Unit
  Addr := Nat
  arAsBytes := fun n => [n]
  acAsBytes := fun n => [n, 1]
  shAsBytes := fun n => [n, 2]
  commit_to := fun bytes => 0 :: bytes
  commEq := fun a b => a == b
  commEq_iff := fun a b => by simp
  dleqVerify := fun _ _ _ => true

/-- A fixture parameter bundle over `NatSwap` whose datum fields all hold
the expected variants. -/
def aliceBundle0 : AliceParameters NatSwap where
  buy := .PublicArbitrating 10
  cancel := .PublicArbitrating 11
  refund := .PublicArbitrating 12
  punish := .PublicArbitrating 13
  adaptor := .PublicArbitrating 14
  destination_address := .address 15
  spend := .PublicAccordant 16
  view := .SharedPrivate 17
  proof := ()
  cancel_timelock := none
  punish_timelock := none

/-- A fixture Alice commitment over `NatSwap` that commits to the byte
string `[99]` in the buy slot, mismatching `revealA0`. -/
def commitA0 : CommitAliceParameters NatSwap where
  buy := NatSwap.commit_to [99]
  cancel := NatSwap.commit_to [11]
  refund := NatSwap.commit_to [12]
  punish := NatSwap.commit_to [13]
  adaptor := NatSwap.commit_to [14]
  spend := NatSwap.commit_to [16, 1]
  view := NatSwap.commit_to [17, 2]

/-- A fixture Alice reveal over `NatSwap` whose buy key does not open
`commitA0`'s buy commitment. -/
def revealA0 : RevealAliceParameters NatSwap where
  buy := 10
  cancel := 11
  refund := 12
  punish := 13
  adaptor := 14
  address := 15
  spend := 16
  view := 17
  proof := ()

theorem errBind {ε α β : Type} (e : ε) (f : α → Except ε β) :
    (Except.error e >>= f) = .error e := rfl

theorem okBind {ε α β : Type} (a : α) (f : α → Except ε β) :
    (Except.ok a >>= f) = f a := rfl

/-- Splitting a unit `Except` sequence that succeeded. -/
theorem seqOk {ε : Type} {x : Except ε Unit} {rest : Unit → Except ε Unit}
    (h : (x >>= rest) = .ok ()) : x = .ok () ∧ rest () = .ok () := by
  cases x with
  | error e => simp [errBind] at h
  | ok u => cases u; exact ⟨rfl, by simpa [okBind] using h⟩

/-- `validate` either succeeds or fails with `InvalidCommitment`. -/
theorem validateCases (Ctx : Swap) (value : List Nat) (c : Ctx.Commitment) :
    validate Ctx value c = .ok () ∨
      validate Ctx value c = .error .InvalidCommitment := by
  unfold validate; split <;> simp

/-- `dleqCheck` succeeds exactly when the proof verifies. -/
theorem dleqCheck_ok_iff (Ctx : Swap) (spend : Ctx.AcPub) (adaptor : Ctx.ArPub)
    (proof : Ctx.Proof) :
    dleqCheck Ctx spend adaptor proof = .ok () ↔
      Ctx.dleqVerify spend adaptor proof = true := by
  unfold dleqCheck; split <;> simp_all

/-- `validate` succeeds on the honest opening of a commitment. -/
theorem validate_commit_to (Ctx : Swap) (value : List Nat) :
    validate Ctx value (Ctx.commit_to value) = .ok () := by
  unfold validate
  rw [if_pos ((Ctx.commEq_iff _ _).mpr rfl)]

/-- C2: `CommitAliceParameters::verify` (and likewise
`CommitBobParameters::verify`) returns `Ok` exactly when every committed
field's revealed bytes validate against the stored commitment and the DLEQ
proof verifies; any failing commitment validation yields
`InvalidCommitment`, and a failing proof check (with all commitments valid)
yields `InvalidProof`. -/
theorem commit_reveal_verify_contract (Ctx : Swap) :
    (∀ (commit : CommitAliceParameters Ctx)
        (reveal : RevealAliceParameters Ctx),
      (commit.verify reveal = .ok () ↔
        (validate Ctx (Ctx.arAsBytes reveal.buy) commit.buy = .ok () ∧
         validate Ctx (Ctx.arAsBytes reveal.cancel) commit.cancel = .ok () ∧
         validate Ctx (Ctx.arAsBytes reveal.refund) commit.refund = .ok () ∧
         validate Ctx (Ctx.arAsBytes reveal.punish) commit.punish = .ok () ∧
         validate Ctx (Ctx.arAsBytes reveal.adaptor) commit.adaptor = .ok () ∧
         validate Ctx (Ctx.acAsBytes reveal.spend) commit.spend = .ok () ∧
         validate Ctx (Ctx.shAsBytes reveal.view) commit.view = .ok () ∧
         Ctx.dleqVerify reveal.spend reveal.adaptor reveal.proof = true)) ∧
      (¬ (validate Ctx (Ctx.arAsBytes reveal.buy) commit.buy = .ok () ∧
          validate Ctx (Ctx.arAsBytes reveal.cancel) commit.cancel = .ok () ∧
          validate Ctx (Ctx.arAsBytes reveal.refund) commit.refund = .ok () ∧
          validate Ctx (Ctx.arAsBytes reveal.punish) commit.punish = .ok () ∧
          validate Ctx (Ctx.arAsBytes reveal.adaptor) commit.adaptor
            = .ok () ∧
          validate Ctx (Ctx.acAsBytes reveal.spend) commit.spend = .ok () ∧
          validate Ctx (Ctx.shAsBytes reveal.view) commit.view = .ok ()) →
        commit.verify reveal = .error .InvalidCommitment) ∧
      ((validate Ctx (Ctx.arAsBytes reveal.buy) commit.buy = .ok () ∧
        validate Ctx (Ctx.arAsBytes reveal.cancel) commit.cancel = .ok () ∧
        validate Ctx (Ctx.arAsBytes reveal.refund) commit.refund = .ok () ∧
        validate Ctx (Ctx.arAsBytes reveal.punish) commit.punish = .ok () ∧
        validate Ctx (Ctx.arAsBytes reveal.adaptor) commit.adaptor = .ok () ∧
        validate Ctx (Ctx.acAsBytes reveal.spend) commit.spend = .ok () ∧
        validate Ctx (Ctx.shAsBytes reveal.view) commit.view = .ok ()) →
        Ctx.dleqVerify reveal.spend reveal.adaptor reveal.proof = false →
        commit.verify reveal = .error .InvalidProof)) ∧
    (∀ (commit : CommitBobParameters Ctx) (reveal : RevealBobParameters Ctx),
      (commit.verify reveal = .ok () ↔
        (validate Ctx (Ctx.arAsBytes reveal.buy) commit.buy = .ok () ∧
         validate Ctx (Ctx.arAsBytes reveal.cancel) commit.cancel = .ok () ∧
         validate Ctx (Ctx.arAsBytes reveal.refund) commit.refund = .ok () ∧
         validate Ctx (Ctx.arAsBytes reveal.adaptor) commit.adaptor = .ok () ∧
         validate Ctx (Ctx.acAsBytes reveal.spend) commit.spend = .ok () ∧
         validate Ctx (Ctx.shAsBytes reveal.view) commit.view = .ok () ∧
         Ctx.dleqVerify reveal.spend reveal.adaptor reveal.proof = true)) ∧
      (¬ (validate Ctx (Ctx.arAsBytes reveal.buy) commit.buy = .ok () ∧
          validate Ctx (Ctx.arAsBytes reveal.cancel) commit.cancel = .ok () ∧
          validate Ctx (Ctx.arAsBytes reveal.refund) commit.refund = .ok () ∧
          validate Ctx (Ctx.arAsBytes reveal.adaptor) commit.adaptor
            = .ok () ∧
          validate Ctx (Ctx.acAsBytes reveal.spend) commit.spend = .ok () ∧
          validate Ctx (Ctx.shAsBytes reveal.view) commit.view = .ok ()) →
        commit.verify reveal = .error .InvalidCommitment) ∧
      ((validate Ctx (Ctx.arAsBytes reveal.buy) commit.buy = .ok () ∧
        validate Ctx (Ctx.arAsBytes reveal.cancel) commit.cancel = .ok () ∧
        validate Ctx (Ctx.arAsBytes reveal.refund) commit.refund = .ok () ∧
        validate Ctx (Ctx.arAsBytes reveal.adaptor) commit.adaptor = .ok () ∧
        validate Ctx (Ctx.acAsBytes reveal.spend) commit.spend = .ok () ∧
        validate Ctx (Ctx.shAsBytes reveal.view) commit.view = .ok ()) →
        Ctx.dleqVerify reveal.spend reveal.adaptor reveal.proof = false →
        commit.verify reveal = .error .InvalidProof)) := by
  constructor
  · intro commit reveal
    refine ⟨⟨fun h => ?_, fun h => ?_⟩, fun hnot => ?_, fun hall hd => ?_⟩
    · simp only [CommitAliceParameters.verify] at h
      obtain ⟨h1, h⟩ := seqOk h
      obtain ⟨h2, h⟩ := seqOk h
      obtain ⟨h3, h⟩ := seqOk h
      obtain ⟨h4, h⟩ := seqOk h
      obtain ⟨h5, h⟩ := seqOk h
      obtain ⟨h6, h⟩ := seqOk h
      obtain ⟨h7, h⟩ := seqOk h
      exact ⟨h1, h2, h3, h4, h5, h6, h7, (dleqCheck_ok_iff Ctx _ _ _).mp h⟩
    · obtain ⟨h1, h2, h3, h4, h5, h6, h7, h8⟩ := h
      simp [CommitAliceParameters.verify, h1, h2, h3, h4, h5, h6, h7,
        okBind, dleqCheck, h8]
    · rcases validateCases Ctx (Ctx.arAsBytes reveal.buy) commit.buy
        with h1 | h1
      · rcases validateCases Ctx (Ctx.arAsBytes reveal.cancel) commit.cancel
          with h2 | h2
        · rcases validateCases Ctx (Ctx.arAsBytes reveal.refund) commit.refund
            with h3 | h3
          · rcases validateCases Ctx (Ctx.arAsBytes reveal.punish)
              commit.punish with h4 | h4
            · rcases validateCases Ctx (Ctx.arAsBytes reveal.adaptor)
                commit.adaptor with h5 | h5
              · rcases validateCases Ctx (Ctx.acAsBytes reveal.spend)
                  commit.spend with h6 | h6
                · rcases validateCases Ctx (Ctx.shAsBytes reveal.view)
                    commit.view with h7 | h7
                  · exact absurd ⟨h1, h2, h3, h4, h5, h6, h7⟩ hnot
                  · simp [CommitAliceParameters.verify, h1, h2, h3, h4, h5,
                      h6, h7, okBind, errBind]
                · simp [CommitAliceParameters.verify, h1, h2, h3, h4, h5,
                    h6, okBind, errBind]
              · simp [CommitAliceParameters.verify, h1, h2, h3, h4, h5,
                  okBind, errBind]
            · simp [CommitAliceParameters.verify, h1, h2, h3, h4, okBind,
                errBind]
          · simp [CommitAliceParameters.verify, h1, h2, h3, okBind, errBind]
        · simp [CommitAliceParameters.verify, h1, h2, okBind, errBind]
      · simp [CommitAliceParameters.verify, h1, okBind, errBind]
    · obtain ⟨h1, h2, h3, h4, h5, h6, h7⟩ := hall
      simp [CommitAliceParameters.verify, h1, h2, h3, h4, h5, h6, h7,
        okBind, dleqCheck, hd]
  · intro commit reveal
    refine ⟨⟨fun h => ?_, fun h => ?_⟩, fun hnot => ?_, fun hall hd => ?_⟩
    · simp only [CommitBobParameters.verify] at h
      obtain ⟨h1, h⟩ := seqOk h
      obtain ⟨h2, h⟩ := seqOk h
      obtain ⟨h3, h⟩ := seqOk h
      obtain ⟨h4, h⟩ := seqOk h
      obtain ⟨h5, h⟩ := seqOk h
      obtain ⟨h6, h⟩ := seqOk h
      exact ⟨h1, h2, h3, h4, h5, h6, (dleqCheck_ok_iff Ctx _ _ _).mp h⟩
    · obtain ⟨h1, h2, h3, h4, h5, h6, h7⟩ := h
      simp [CommitBobParameters.verify, h1, h2, h3, h4, h5, h6, okBind,
        dleqCheck, h7]
    · rcases validateCases Ctx (Ctx.arAsBytes reveal.buy) commit.buy
        with h1 | h1
      · rcases validateCases Ctx (Ctx.arAsBytes reveal.cancel) commit.cancel
          with h2 | h2
        · rcases validateCases Ctx (Ctx.arAsBytes reveal.refund) commit.refund
            with h3 | h3
          · rcases validateCases Ctx (Ctx.arAsBytes reveal.adaptor)
              commit.adaptor with h4 | h4
            · rcases validateCases Ctx (Ctx.acAsBytes reveal.spend)
                commit.spend with h5 | h5
              · rcases validateCases Ctx (Ctx.shAsBytes reveal.view)
                  commit.view with h6 | h6
                · exact absurd ⟨h1, h2, h3, h4, h5, h6⟩ hnot
                · simp [CommitBobParameters.verify, h1, h2, h3, h4, h5, h6,
                    okBind, errBind]
              · simp [CommitBobParameters.verify, h1, h2, h3, h4, h5,
                  okBind, errBind]
            · simp [CommitBobParameters.verify, h1, h2, h3, h4, okBind,
                errBind]
          · simp [CommitBobParameters.verify, h1, h2, h3, okBind, errBind]
        · simp [CommitBobParameters.verify, h1, h2, okBind, errBind]
      · simp [CommitBobParameters.verify, h1, okBind, errBind]
    · obtain ⟨h1, h2, h3, h4, h5, h6⟩ := hall
      simp [CommitBobParameters.verify, h1, h2, h3, h4, h5, h6, okBind,
        dleqCheck, hd]

/-- Witness for `commit_reveal_verify_contract`: a commitment whose buy
slot commits to different bytes makes verification fail with
`InvalidCommitment`. -/
theorem commit_reveal_verify_contract_witness :
    commitA0.verify revealA0 = .error .InvalidCommitment :=
  ((commit_reveal_verify_contract NatSwap).1 commitA0 revealA0).2.1
    (by
      rintro ⟨hb, -⟩
      have hbad : validate NatSwap (NatSwap.arAsBytes revealA0.buy)
          commitA0.buy = .error .InvalidCommitment := by rfl
      rw [hbad] at hb
      exact Except.noConfusion hb)

/-- Splitting a successful `Except` bind. -/
theorem bindOk {ε α β : Type} {x : Except ε α} {f : α → Except ε β} {b : β}
    (h : (x >>= f) = .ok b) : ∃ a, x = .ok a ∧ f a = .ok b := by
  cases x with
  | error e => simp [errBind] at h
  | ok a => exact ⟨a, rfl, by simpa [okBind] using h⟩

/-- A successful arbitrating narrowing pins the datum's variant. -/
theorem tryIntoArOk {Ctx : Swap} {k : KeyType Ctx} {a : Ctx.ArPub}
    (h : k.try_into_arbitrating_pubkey = .ok a) :
    k = .PublicArbitrating a := by
  cases k <;> simp_all [KeyType.try_into_arbitrating_pubkey]

/-- A successful accordant narrowing pins the datum's variant. -/
theorem tryIntoAcOk {Ctx : Swap} {k : KeyType Ctx} {a : Ctx.AcPub}
    (h : k.try_into_accordant_pubkey = .ok a) : k = .PublicAccordant a := by
  cases k <;> simp_all [KeyType.try_into_accordant_pubkey]

/-- A successful shared-private narrowing pins the datum's variant. -/
theorem tryIntoShOk {Ctx : Swap} {k : KeyType Ctx} {a : Ctx.ShPriv}
    (h : k.try_into_shared_private = .ok a) : k = .SharedPrivate a := by
  cases k <;> simp_all [KeyType.try_into_shared_private]

/-- A successful address narrowing pins the datum's variant. -/
theorem tryIntoAddrOk {Ctx : Swap} {p : Parameter Ctx} {a : Ctx.Addr}
    (h : p.try_into_address = .ok a) : p = .address a := by
  cases p <;> simp_all [Parameter.try_into_address]

/-- C3: commit-reveal soundness — for every Alice (resp. Bob) parameter
bundle whose datum fields hold the expected variants (so that the reveal
`from_bundle` succeeds), if the DLEQ proof verifies on the revealed triple,
then the commit built from the same bundle verifies the reveal. -/
theorem commit_reveal_soundness :
    (∀ (Ctx : Swap) (bundle : AliceParameters Ctx)
        (reveal : RevealAliceParameters Ctx),
      RevealAliceParameters.from_bundle bundle = .ok reveal →
      Ctx.dleqVerify reveal.spend reveal.adaptor reveal.proof = true →
      (CommitAliceParameters.from_bundle bundle).verify reveal = .ok ()) ∧
    (∀ (Ctx : Swap) (bundle : BobParameters Ctx)
        (reveal : RevealBobParameters Ctx),
      RevealBobParameters.from_bundle bundle = .ok reveal →
      Ctx.dleqVerify reveal.spend reveal.adaptor reveal.proof = true →
      (CommitBobParameters.from_bundle bundle).verify reveal = .ok ()) := by
  constructor
  · intro Ctx bundle reveal hfb hd
    simp only [RevealAliceParameters.from_bundle] at hfb
    obtain ⟨buy, hbuy, hfb⟩ := bindOk hfb
    obtain ⟨cancel, hcancel, hfb⟩ := bindOk hfb
    obtain ⟨refund, hrefund, hfb⟩ := bindOk hfb
    obtain ⟨punish, hpunish, hfb⟩ := bindOk hfb
    obtain ⟨adaptor, hadaptor, hfb⟩ := bindOk hfb
    obtain ⟨addr, haddr, hfb⟩ := bindOk hfb
    obtain ⟨spend, hspend, hfb⟩ := bindOk hfb
    obtain ⟨view, hview, hfb⟩ := bindOk hfb
    simp only [pure, Except.pure, Except.ok.injEq] at hfb
    subst hfb
    simp [CommitAliceParameters.verify, CommitAliceParameters.from_bundle,
      tryIntoArOk hbuy, tryIntoArOk hcancel, tryIntoArOk hrefund,
      tryIntoArOk hpunish, tryIntoArOk hadaptor, tryIntoAcOk hspend,
      tryIntoShOk hview, KeyType.as_bytes, validate_commit_to, okBind,
      dleqCheck, hd]
  · intro Ctx bundle reveal hfb hd
    simp only [RevealBobParameters.from_bundle] at hfb
    obtain ⟨buy, hbuy, hfb⟩ := bindOk hfb
    obtain ⟨cancel, hcancel, hfb⟩ := bindOk hfb
    obtain ⟨refund, hrefund, hfb⟩ := bindOk hfb
    obtain ⟨adaptor, hadaptor, hfb⟩ := bindOk hfb
    obtain ⟨addr, haddr, hfb⟩ := bindOk hfb
    obtain ⟨spend, hspend, hfb⟩ := bindOk hfb
    obtain ⟨view, hview, hfb⟩ := bindOk hfb
    simp only [pure, Except.pure, Except.ok.injEq] at hfb
    subst hfb
    simp [CommitBobParameters.verify, CommitBobParameters.from_bundle,
      tryIntoArOk hbuy, tryIntoArOk hcancel, tryIntoArOk hrefund,
      tryIntoArOk hadaptor, tryIntoAcOk hspend, tryIntoShOk hview,
      KeyType.as_bytes, validate_commit_to, okBind, dleqCheck, hd]

/-- Witness for `commit_reveal_soundness`: the fixture bundle reveals
successfully and its own commit verifies the reveal. -/
theorem commit_reveal_soundness_witness :
    RevealAliceParameters.from_bundle aliceBundle0 = .ok revealA0 ∧
    (CommitAliceParameters.from_bundle aliceBundle0).verify revealA0
      = .ok () :=
  ⟨by rfl,
   commit_reveal_soundness.1 NatSwap aliceBundle0 revealA0 (by rfl) (by rfl)⟩

/-- C6: `TxId`'s wire encoding is exactly the 2-byte little-endian tag
Funding=0x0001, Lock=0x0002, Buy=0x0003, Cancel=0x0004, Refund=0x0005,
Punish=0x0006; decode inverts encode on all six values, and any other
2-byte value decodes to `UnknownType`. -/
theorem txid_wire_exhaustive :
    (TxId.consensus_encode .Funding = [1, 0] ∧
      TxId.consensus_encode .Lock = [2, 0] ∧
      TxId.consensus_encode .Buy = [3, 0] ∧
      TxId.consensus_encode .Cancel = [4, 0] ∧
      TxId.consensus_encode .Refund = [5, 0] ∧
      TxId.consensus_encode .Punish = [6, 0]) ∧
    (∀ t : TxId, TxId.consensus_decode t.consensus_encode = .ok (t, [])) ∧
    (∀ b0 b1 : Nat, b0 < 256 → b1 < 256 →
      b0 + 256 * b1 ∉ ([1, 2, 3, 4, 5, 6] : List Nat) →
      TxId.consensus_decode [b0, b1] = .error .UnknownType) := by
  refine ⟨by decide, fun t => by cases t <;> rfl, fun b0 b1 _ _ h => ?_⟩
  simp only [List.mem_cons, List.not_mem_nil, or_false, not_or] at h
  obtain ⟨h1, h2, h3, h4, h5, h6⟩ := h
  simp [TxId.consensus_decode, u16DecodeLE, h1, h2, h3, h4, h5, h6]

/-- Witness for `txid_wire_exhaustive`: the tag 0x0007 decodes to
`UnknownType`. -/
theorem txid_wire_exhaustive_witness :
    TxId.consensus_decode [7, 0] = .error .UnknownType :=
  txid_wire_exhaustive.2.2 7 0 (by decide) (by decide) (by decide)

/-- C8: each narrowing conversion on `SignatureType` and `KeyType` returns
`Ok` with the contained value exactly on the matching variant and
`TypeMismatch` on every other variant; in particular `try_into_regular` on
`Adapted` and `try_into_adapted` on `Regular` fail although both carry the
same inner signature type. -/
theorem tagged_union_narrowing (α σ : Type) (Ctx : Swap) :
    (∀ a : α, (SignatureType.Adaptor a : SignatureType α σ).try_into_adaptor
      = .ok a) ∧
    (∀ s : σ, (SignatureType.Adapted s : SignatureType α σ).try_into_adaptor
      = .error .TypeMismatch) ∧
    (∀ s : σ, (SignatureType.Regular s : SignatureType α σ).try_into_adaptor
      = .error .TypeMismatch) ∧
    (∀ s : σ, (SignatureType.Adapted s : SignatureType α σ).try_into_adapted
      = .ok s) ∧
    (∀ a : α, (SignatureType.Adaptor a : SignatureType α σ).try_into_adapted
      = .error .TypeMismatch) ∧
    (∀ s : σ, (SignatureType.Regular s : SignatureType α σ).try_into_adapted
      = .error .TypeMismatch) ∧
    (∀ s : σ, (SignatureType.Regular s : SignatureType α σ).try_into_regular
      = .ok s) ∧
    (∀ a : α, (SignatureType.Adaptor a : SignatureType α σ).try_into_regular
      = .error .TypeMismatch) ∧
    (∀ s : σ, (SignatureType.Adapted s : SignatureType α σ).try_into_regular
      = .error .TypeMismatch) ∧
    (∀ k : Ctx.ArPub,
      (KeyType.PublicArbitrating k).try_into_arbitrating_pubkey = .ok k) ∧
    (∀ k : Ctx.AcPub,
      (KeyType.PublicAccordant k : KeyType Ctx).try_into_arbitrating_pubkey
        = .error .TypeMismatch) ∧
    (∀ k : Ctx.ShPriv,
      (KeyType.SharedPrivate k : KeyType Ctx).try_into_arbitrating_pubkey
        = .error .TypeMismatch) ∧
    (∀ k : Ctx.AcPub,
      (KeyType.PublicAccordant k).try_into_accordant_pubkey = .ok k) ∧
    (∀ k : Ctx.ArPub,
      (KeyType.PublicArbitrating k : KeyType Ctx).try_into_accordant_pubkey
        = .error .TypeMismatch) ∧
    (∀ k : Ctx.ShPriv,
      (KeyType.SharedPrivate k : KeyType Ctx).try_into_accordant_pubkey
        = .error .TypeMismatch) ∧
    (∀ k : Ctx.ShPriv,
      (KeyType.SharedPrivate k).try_into_shared_private = .ok k) ∧
    (∀ k : Ctx.ArPub,
      (KeyType.PublicArbitrating k : KeyType Ctx).try_into_shared_private
        = .error .TypeMismatch) ∧
    (∀ k : Ctx.AcPub,
      (KeyType.PublicAccordant k : KeyType Ctx).try_into_shared_private
        = .error .TypeMismatch) :=
  ⟨fun _ => rfl, fun _ => rfl, fun _ => rfl, fun _ => rfl, fun _ => rfl,
   fun _ => rfl, fun _ => rfl, fun _ => rfl, fun _ => rfl, fun _ => rfl,
   fun _ => rfl, fun _ => rfl, fun _ => rfl, fun _ => rfl, fun _ => rfl,
   fun _ => rfl, fun _ => rfl, fun _ => rfl⟩

namespace Bitcoin

/-- C1: on a PSBT whose witness-utxo values sum to `I` (no u64 overflow of
the sum), with unsigned-transaction weight `w` and resolved rate `rate`
(`Fixed` rate, range low end under `Aggressive`, range high end under
`Conservative`), `set_fee` fails with `MissingInputsMetadata` when an input
lacks its witness utxo, with `AmountOfFeeTooHigh` when `rate * w` overflows
u64, with `MultiUTXOUnsupported` when the unsigned transaction has not
exactly one output, with `NotEnoughAssets` when `rate * w > I`, and
otherwise succeeds returning fee `rate * w` with the sole output's value
set to `I - rate * w`. -/
theorem set_fee_spec (weight : Transaction → Nat) (tx : Psbt)
    (strategy : FeeStrategy) (politic : FeePolitic)
    (hsum : ∀ utxos, witnessUtxos tx = some utxos →
      (utxos.map TxOut.value).sum < u64Size) :
    (witnessUtxos tx = none →
      set_fee weight tx strategy politic = (tx, .error .MissingInputsMetadata)) ∧
    ∀ utxos, witnessUtxos tx = some utxos →
      (u64Size ≤ resolveRate strategy politic * weight tx.unsigned_tx →
        set_fee weight tx strategy politic = (tx, .error .AmountOfFeeTooHigh)) ∧
      (resolveRate strategy politic * weight tx.unsigned_tx < u64Size →
        (tx.unsigned_tx.output.length ≠ 1 →
          set_fee weight tx strategy politic =
            (tx, .error (.Wrapped .MultiUTXOUnsupported))) ∧
        (tx.unsigned_tx.output.length = 1 →
          ((utxos.map TxOut.value).sum <
              resolveRate strategy politic * weight tx.unsigned_tx →
            set_fee weight tx strategy politic = (tx, .error .NotEnoughAssets)) ∧
          (resolveRate strategy politic * weight tx.unsigned_tx ≤
              (utxos.map TxOut.value).sum →
            (set_fee weight tx strategy politic).2 =
              .ok (resolveRate strategy politic * weight tx.unsigned_tx) ∧
            (set_fee weight tx strategy politic).1.unsigned_tx.output.map
                TxOut.value =
              [(utxos.map TxOut.value).sum -
                resolveRate strategy politic * weight tx.unsigned_tx]))) := by
  constructor
  · intro h
    simp [set_fee, h]
  · intro utxos hu
    have hI := hsum utxos hu
    have hmod : (utxos.map TxOut.value).sum % u64Size =
        (utxos.map TxOut.value).sum := Nat.mod_eq_of_lt hI
    constructor
    · intro hov
      simp [set_fee, hu, checkedMul, Nat.not_lt.mpr hov]
    · intro hlt
      constructor
      · intro hlen
        simp [set_fee, hu, checkedMul, hlt, hlen]
      · intro hlen
        obtain ⟨o, ho⟩ := List.length_eq_one.mp hlen
        constructor
        · intro hless
          have : (utxos.map TxOut.value).sum % u64Size <
              resolveRate strategy politic * weight tx.unsigned_tx := by
            rw [hmod]; exact hless
          simp [set_fee, hu, checkedMul, hlt, hlen, this]
        · intro hge
          have hnl : ¬ ((utxos.map TxOut.value).sum % u64Size <
              resolveRate strategy politic * weight tx.unsigned_tx) := by
            rw [hmod]; omega
          simp [set_fee, hu, checkedMul, hlt, hlen, hnl, ho, hmod,
            Nat.not_lt.mpr hge]

/-- Witness for `set_fee_spec`: the spec's range scenario — strategy
`Range{lo=1, hi=5}`, politic `Aggressive`, weight 500, input 10000 —
succeeds with fee 500 and output value 9500. -/
theorem set_fee_spec_witness :
    (set_fee (fun _ => 500) feeTx0 (.Range 1 5) .Aggressive).2 = .ok 500 ∧
    (set_fee (fun _ => 500) feeTx0 (.Range 1 5)
        .Aggressive).1.unsigned_tx.output.map TxOut.value = [9500] := by
  have h := (set_fee_spec (fun _ => 500) feeTx0 (.Range 1 5) .Aggressive
    (by
      intro utxos hu
      have h0 : witnessUtxos feeTx0 = some [⟨10000, []⟩] := by rfl
      rw [h0] at hu
      cases hu
      decide)).2
    [⟨10000, []⟩] (by rfl)
  exact ((h.2 (by decide)).2 (by rfl)).2 (by decide)

/-- C9: `set_fee` is frame respecting and atomic — on error the PSBT is
unchanged, and on success the only mutation is the value of output 0 of the
unsigned transaction: inputs, outputs, every other transaction field and
the outputs' scripts are unchanged. -/
theorem set_fee_frame (weight : Transaction → Nat) (tx : Psbt)
    (strategy : FeeStrategy) (politic : FeePolitic) :
    (∀ e, (set_fee weight tx strategy politic).2 = .error e →
      (set_fee weight tx strategy politic).1 = tx) ∧
    (∀ fee, (set_fee weight tx strategy politic).2 = .ok fee →
      (set_fee weight tx strategy politic).1.inputs = tx.inputs ∧
      (set_fee weight tx strategy politic).1.outputs = tx.outputs ∧
      (set_fee weight tx strategy politic).1.unsigned_tx.version =
        tx.unsigned_tx.version ∧
      (set_fee weight tx strategy politic).1.unsigned_tx.lock_time =
        tx.unsigned_tx.lock_time ∧
      (set_fee weight tx strategy politic).1.unsigned_tx.input =
        tx.unsigned_tx.input ∧
      (set_fee weight tx strategy politic).1.unsigned_tx.output.map
          TxOut.script_pubkey =
        tx.unsigned_tx.output.map TxOut.script_pubkey ∧
      ∃ v, (set_fee weight tx strategy politic).1.unsigned_tx.output =
        tx.unsigned_tx.output.set 0
          { tx.unsigned_tx.output.headD ⟨0, []⟩ with value := v }) := by
  rcases hw : witnessUtxos tx with _ | utxos
  · constructor
    · intro e _; simp [set_fee, hw]
    · intro fee hfee; simp [set_fee, hw] at hfee
  · rcases hc : checkedMul (resolveRate strategy politic)
        (weight tx.unsigned_tx) with _ | fee_amount
    · constructor
      · intro e _; simp [set_fee, hw, hc]
      · intro fee hfee; simp [set_fee, hw, hc] at hfee
    · by_cases hlen : tx.unsigned_tx.output.length ≠ 1
      · constructor
        · intro e _; simp [set_fee, hw, hc, hlen]
        · intro fee hfee; simp [set_fee, hw, hc, hlen] at hfee
      · push_neg at hlen
        by_cases hless : (utxos.map TxOut.value).sum % u64Size < fee_amount
        · constructor
          · intro e _; simp [set_fee, hw, hc, hlen, hless]
          · intro fee hfee; simp [set_fee, hw, hc, hlen, hless] at hfee
        · constructor
          · intro e he; simp [set_fee, hw, hc, hlen, hless] at he
          · intro fee _
            obtain ⟨o, ho⟩ := List.length_eq_one.mp hlen
            refine ⟨?_, ?_, ?_, ?_, ?_, ?_,
              ⟨(utxos.map TxOut.value).sum % u64Size - fee_amount, ?_⟩⟩ <;>
              simp [set_fee, hw, hc, hlen, hless, ho]

/-- Witness for `set_fee_frame`: a failing `set_fee` call leaves the PSBT
unchanged. -/
theorem set_fee_frame_witness :
    (set_fee (fun _ => 500) feeTxNoMeta (.Fixed 2) .Aggressive).1 =
      feeTxNoMeta :=
  (set_fee_frame (fun _ => 500) feeTxNoMeta (.Fixed 2) .Aggressive).1
    .MissingInputsMetadata (by rfl)

/-- C5: a successful `Tx<Cancel>::initialize` produces a version-2
transaction with exactly one input — spending `prev`'s consumable output
with sequence equal to the source lock's CSV timelock — and exactly one
output paying the v0 P2WSH of
`IF 2 <alice> <bob> 2 CHECKMULTISIG ELSE <punish timelock> CSV DROP
<failure> CHECKSIG ENDIF`; input 0 carries the previous output's witness
utxo and witness script and the `SIGHASH_ALL` type. -/
theorem cancel_init_spec (sha256 : List Nat → List Nat)
    (prev : Except FError MetadataOutput) (lock : DataLock)
    (punish_lock : DataPunishableLock) (om : MetadataOutput) (p : Psbt)
    (hprev : prev = .ok om)
    (h : initCancel sha256 prev lock punish_lock = .ok p) :
    p.unsigned_tx.version = 2 ∧
    p.unsigned_tx.lock_time = 0 ∧
    p.unsigned_tx.input =
      [{ previous_output := om.out_point, script_sig := []
         sequence := lock.timelock, witness := [] }] ∧
    p.unsigned_tx.output =
      [{ value := om.tx_out.value
         script_pubkey := toV0P2wsh sha256
           [.op OP_IF, .op OP_PUSHNUM_2,
            .pushBytes punish_lock.success.alice,
            .pushBytes punish_lock.success.bob,
            .op OP_PUSHNUM_2, .op OP_CHECKMULTISIG, .op OP_ELSE,
            pushInt punish_lock.timelock, .op OP_CSV, .op OP_DROP,
            .pushBytes punish_lock.failure, .op OP_CHECKSIG,
            .op OP_ENDIF] }] ∧
    p.inputs =
      [{ witness_utxo := some om.tx_out, partial_sigs := []
         witness_script := om.script_pubkey, final_script_witness := none
         sighash_type := some .All }] ∧
    p.outputs = [⟨some (cancelScript punish_lock)⟩] := by
  subst hprev
  have hX : initCancel sha256 (Except.ok om) lock punish_lock =
      .ok { unsigned_tx :=
              { version := 2, lock_time := 0
                input := [{ previous_output := om.out_point, script_sig := []
                            sequence := lock.timelock, witness := [] }]
                output := [{ value := om.tx_out.value
                             script_pubkey :=
                               toV0P2wsh sha256 (cancelScript punish_lock) }] }
            inputs :=
              [{ witness_utxo := some om.tx_out, partial_sigs := []
                 witness_script := om.script_pubkey
                 final_script_witness := none
                 sighash_type := some .All }]
            outputs := [⟨some (cancelScript punish_lock)⟩] } := rfl
  rw [hX] at h
  injection h with h
  subst h
  exact ⟨rfl, rfl, rfl, rfl, rfl, rfl⟩

/-- Witness for `cancel_init_spec` at the fixtures. -/
theorem cancel_init_spec_witness :
    initCancel (fun _ => [9]) (.ok meta0) lock0 punishLock0
      = .ok cancelInit0 ∧
    cancelInit0.unsigned_tx.version = 2 :=
  ⟨rfl,
   (cancel_init_spec (fun _ => [9]) (.ok meta0) lock0 punishLock0 meta0
     cancelInit0 rfl (by rfl)).1⟩

/-- C10: `Tx<Cancel>::initialize` deducts no fee — the sole output's value
equals the consumed previous output's value, so the witness-utxo input sum
equals the output sum and the effective fee is zero. -/
theorem cancel_init_no_fee (sha256 : List Nat → List Nat)
    (prev : Except FError MetadataOutput) (lock : DataLock)
    (punish_lock : DataPunishableLock) (om : MetadataOutput) (p : Psbt)
    (hprev : prev = .ok om)
    (h : initCancel sha256 prev lock punish_lock = .ok p) :
    witnessUtxos p = some [om.tx_out] ∧
    p.unsigned_tx.output.map TxOut.value = [om.tx_out.value] ∧
    ∀ utxos, witnessUtxos p = some utxos →
      (utxos.map TxOut.value).sum =
        (p.unsigned_tx.output.map TxOut.value).sum := by
  obtain ⟨-, -, -, hout, hins, -⟩ :=
    cancel_init_spec sha256 prev lock punish_lock om p hprev h
  have hw : witnessUtxos p = some [om.tx_out] := by
    unfold witnessUtxos
    rw [hins]
    rfl
  refine ⟨hw, ?_, ?_⟩
  · simp [hout]
  · intro utxos hu
    rw [hw] at hu
    cases hu
    simp [hout]

/-- Witness for `cancel_init_no_fee` at the fixtures. -/
theorem cancel_init_no_fee_witness :
    witnessUtxos cancelInit0 = some [meta0.tx_out] :=
  (cancel_init_no_fee (fun _ => [9]) (.ok meta0) lock0 punishLock0 meta0
    cancelInit0 rfl (by rfl)).1

/-- A successful key read pins the instruction to a parsable push. -/
theorem getPubKeyInstrOk {fromSlice : List Nat → Option PubKey}
    {i : Option Instr} {k : PubKey} (h : getPubKeyInstr fromSlice i = .ok k) :
    ∃ b, i = some (.pushBytes b) ∧ fromSlice b = some k := by
  cases i with
  | none => simp [getPubKeyInstr] at h
  | some instr =>
    cases instr with
    | op n => simp [getPubKeyInstr] at h
    | pushBytes b =>
      cases hf : fromSlice b with
      | none => rw [getPubKeyInstr, hf] at h; cases h
      | some key =>
        rw [getPubKeyInstr, hf] at h
        cases h
        exact ⟨b, rfl, hf⟩

/-- An absent, non-push, or unparsable key instruction reads as
`MissingPublicKey`. -/
theorem getPubKeyInstrErr {fromSlice : List Nat → Option PubKey}
    {i : Option Instr}
    (h : i = none ∨ (∃ n, i = some (.op n)) ∨
      (∃ b, i = some (.pushBytes b) ∧ fromSlice b = none)) :
    getPubKeyInstr fromSlice i = .error .MissingPublicKey := by
  rcases h with rfl | ⟨n, rfl⟩ | ⟨b, rfl, hf⟩
  · rfl
  · rfl
  · rw [getPubKeyInstr, hf]

/-- A successful signature read pins the partial-signature map entry. -/
theorem getSigOk {sigs : List (PubKey × List Nat)} {k : PubKey}
    {s : List Nat} (h : getSig sigs k = .ok s) : sigs.lookup k = some s := by
  cases hl : sigs.lookup k with
  | none => rw [getSig, hl] at h; cases h
  | some sig => rw [getSig, hl] at h; cases h; rfl

/-- With a witness script present, the finalize stack computation is the
two key reads, the two signature reads, and the five-item stack. -/
theorem cancelWitnessStack_some {fromSlice : List Nat → Option PubKey}
    {i0 : PsbtInput} {script : Script}
    (hws : i0.witness_script = some script) :
    cancelWitnessStack fromSlice i0 = (do
      let key1 ← getPubKeyInstr fromSlice script[11]?
      let sig1 ← getSig i0.partial_sigs key1
      let key2 ← getPubKeyInstr fromSlice script[12]?
      let sig2 ← getSig i0.partial_sigs key2
      pure [[], sig1, sig2, [], scriptToBytes script]) := by
  unfold cancelWitnessStack
  rw [hws]

/-- The stack computation never reads `final_script_witness`. -/
theorem cancelWitnessStack_final_irrel (fromSlice : List Nat → Option PubKey)
    (i0 : PsbtInput) (w : Option (List (List Nat))) :
    cancelWitnessStack fromSlice { i0 with final_script_witness := w } =
      cancelWitnessStack fromSlice i0 := rfl

/-- A failing stack computation makes `finalize` fail with the same error
and leave the PSBT unchanged. -/
theorem cancelFinalizeErr {fromSlice : List Nat → Option PubKey}
    {psbt : Psbt} {e : FError}
    (h : cancelWitnessStack fromSlice (psbt.inputs.headD default)
      = .error e) :
    cancelFinalize fromSlice psbt = (psbt, .error e) := by
  unfold cancelFinalize
  rw [h]

/-- A successful stack computation makes `finalize` store the stack in
input 0's `final_script_witness`. -/
theorem cancelFinalizeOk {fromSlice : List Nat → Option PubKey}
    {psbt : Psbt} {stack : List (List Nat)}
    (h : cancelWitnessStack fromSlice (psbt.inputs.headD default)
      = .ok stack) :
    cancelFinalize fromSlice psbt =
      ({ psbt with
          inputs := psbt.inputs.set 0
            { psbt.inputs.headD default with
                final_script_witness := some stack } }, .ok ()) := by
  unfold cancelFinalize
  rw [h]

/-- C4: a successful `Tx<Cancel>::finalize` sets input 0's final witness to
exactly `[empty dummy, sig1, sig2, empty OP_FALSE marker, witness-script
bytes]`, where the signatures are the partial-sig entries keyed by the
public keys recovered from witness-script instructions 11 and 12 — in a
lock-shaped script, the two `PushBytes` that follow the timelock branch's
multisig threshold opcode (position 10); it fails with `MissingWitness`
when input 0 has no witness script, with `MissingPublicKey` when either
expected key instruction is absent, is not a `PushBytes`, or does not parse
as a public key, and with `MissingSignature` when the partial-sig map lacks
an entry for either recovered key. -/
theorem cancel_finalize_spec (fromSlice : List Nat → Option PubKey)
    (psbt : Psbt) :
    ((psbt.inputs.headD default).witness_script = none →
      cancelFinalize fromSlice psbt = (psbt, .error .MissingWitness)) ∧
    (∀ script,
      (psbt.inputs.headD default).witness_script = some script →
      (∀ r, cancelFinalize fromSlice psbt = (r, .ok ()) →
        ∃ b1 k1 sig1 b2 k2 sig2,
          script[11]? = some (.pushBytes b1) ∧ fromSlice b1 = some k1 ∧
          (psbt.inputs.headD default).partial_sigs.lookup k1 = some sig1 ∧
          script[12]? = some (.pushBytes b2) ∧ fromSlice b2 = some k2 ∧
          (psbt.inputs.headD default).partial_sigs.lookup k2 = some sig2 ∧
          r = { psbt with
                  inputs := psbt.inputs.set 0
                    { psbt.inputs.headD default with
                        final_script_witness :=
                          some [[], sig1, sig2, [],
                            scriptToBytes script] } }) ∧
      ((script[11]? = none ∨ (∃ n, script[11]? = some (.op n)) ∨
        (∃ b, script[11]? = some (.pushBytes b) ∧ fromSlice b = none)) →
        cancelFinalize fromSlice psbt = (psbt, .error .MissingPublicKey)) ∧
      (∀ b1 k1, script[11]? = some (.pushBytes b1) → fromSlice b1 = some k1 →
        ((psbt.inputs.headD default).partial_sigs.lookup k1 = none →
          cancelFinalize fromSlice psbt = (psbt, .error .MissingSignature)) ∧
        (∀ sig1,
          (psbt.inputs.headD default).partial_sigs.lookup k1 = some sig1 →
          ((script[12]? = none ∨ (∃ n, script[12]? = some (.op n)) ∨
            (∃ b, script[12]? = some (.pushBytes b) ∧ fromSlice b = none)) →
            cancelFinalize fromSlice psbt =
              (psbt, .error .MissingPublicKey)) ∧
          (∀ b2 k2, script[12]? = some (.pushBytes b2) →
            fromSlice b2 = some k2 →
            ((psbt.inputs.headD default).partial_sigs.lookup k2 = none →
              cancelFinalize fromSlice psbt =
                (psbt, .error .MissingSignature)) ∧
            (∀ sig2,
              (psbt.inputs.headD default).partial_sigs.lookup k2
                = some sig2 →
              cancelFinalize fromSlice psbt =
                ({ psbt with
                    inputs := psbt.inputs.set 0
                      { psbt.inputs.headD default with
                          final_script_witness :=
                            some [[], sig1, sig2, [],
                              scriptToBytes script] } }, .ok ())))))) ∧
    (∀ (a b c d : List Nat) (tl : Instr),
      ([.op OP_IF, .op OP_PUSHNUM_2, .pushBytes a, .pushBytes b,
        .op OP_PUSHNUM_2, .op OP_CHECKMULTISIG, .op OP_ELSE, tl,
        .op OP_CSV, .op OP_DROP, .op OP_PUSHNUM_2, .pushBytes c,
        .pushBytes d, .op OP_PUSHNUM_2, .op OP_CHECKMULTISIG,
        .op OP_ENDIF] : Script)[10]? = some (.op OP_PUSHNUM_2) ∧
      ([.op OP_IF, .op OP_PUSHNUM_2, .pushBytes a, .pushBytes b,
        .op OP_PUSHNUM_2, .op OP_CHECKMULTISIG, .op OP_ELSE, tl,
        .op OP_CSV, .op OP_DROP, .op OP_PUSHNUM_2, .pushBytes c,
        .pushBytes d, .op OP_PUSHNUM_2, .op OP_CHECKMULTISIG,
        .op OP_ENDIF] : Script)[11]? = some (.pushBytes c) ∧
      ([.op OP_IF, .op OP_PUSHNUM_2, .pushBytes a, .pushBytes b,
        .op OP_PUSHNUM_2, .op OP_CHECKMULTISIG, .op OP_ELSE, tl,
        .op OP_CSV, .op OP_DROP, .op OP_PUSHNUM_2, .pushBytes c,
        .pushBytes d, .op OP_PUSHNUM_2, .op OP_CHECKMULTISIG,
        .op OP_ENDIF] : Script)[12]? = some (.pushBytes d)) := by
  refine ⟨fun hws => ?_, fun script hws => ⟨fun r hr => ?_, fun hbad => ?_,
    fun b1 k1 h11 hf1 => ⟨fun hlk1 => ?_, fun sig1 hsig1 =>
      ⟨fun hbad2 => ?_, fun b2 k2 h12 hf2 => ⟨fun hlk2 => ?_,
        fun sig2 hsig2 => ?_⟩⟩⟩⟩,
    fun a b c d tl => ⟨rfl, rfl, rfl⟩⟩
  · exact cancelFinalizeErr (by unfold cancelWitnessStack; rw [hws])
  · rcases hcw : cancelWitnessStack fromSlice (psbt.inputs.headD default)
      with e | stack
    · rw [cancelFinalizeErr hcw] at hr
      exact absurd (congrArg Prod.snd hr) (by simp)
    · rw [cancelFinalizeOk hcw] at hr
      rw [Prod.mk.injEq] at hr
      obtain ⟨hr1, -⟩ := hr
      subst hr1
      rw [cancelWitnessStack_some hws] at hcw
      obtain ⟨k1, hk1, hcw⟩ := bindOk hcw
      obtain ⟨sig1, hs1, hcw⟩ := bindOk hcw
      obtain ⟨k2, hk2, hcw⟩ := bindOk hcw
      obtain ⟨sig2, hs2, hcw⟩ := bindOk hcw
      simp only [pure, Except.pure, Except.ok.injEq] at hcw
      subst hcw
      obtain ⟨b1, h11, hf1⟩ := getPubKeyInstrOk hk1
      obtain ⟨b2, h12, hf2⟩ := getPubKeyInstrOk hk2
      exact ⟨b1, k1, sig1, b2, k2, sig2, h11, hf1, getSigOk hs1, h12, hf2,
        getSigOk hs2, rfl⟩
  · refine cancelFinalizeErr ?_
    rw [cancelWitnessStack_some hws, getPubKeyInstrErr hbad, errBind]
  · refine cancelFinalizeErr ?_
    rw [cancelWitnessStack_some hws, h11]
    rw [show getPubKeyInstr fromSlice (some (.pushBytes b1)) = .ok k1 by
      rw [getPubKeyInstr, hf1]]
    rw [okBind, show getSig (psbt.inputs.headD default).partial_sigs k1
      = .error .MissingSignature by rw [getSig, hlk1], errBind]
  · refine cancelFinalizeErr ?_
    rw [cancelWitnessStack_some hws, h11]
    rw [show getPubKeyInstr fromSlice (some (.pushBytes b1)) = .ok k1 by
      rw [getPubKeyInstr, hf1]]
    rw [okBind, show getSig (psbt.inputs.headD default).partial_sigs k1
      = .ok sig1 by rw [getSig, hsig1], okBind]
    rw [getPubKeyInstrErr hbad2, errBind]
  · refine cancelFinalizeErr ?_
    rw [cancelWitnessStack_some hws, h11]
    rw [show getPubKeyInstr fromSlice (some (.pushBytes b1)) = .ok k1 by
      rw [getPubKeyInstr, hf1]]
    rw [okBind, show getSig (psbt.inputs.headD default).partial_sigs k1
      = .ok sig1 by rw [getSig, hsig1], okBind, h12]
    rw [show getPubKeyInstr fromSlice (some (.pushBytes b2)) = .ok k2 by
      rw [getPubKeyInstr, hf2]]
    rw [okBind, show getSig (psbt.inputs.headD default).partial_sigs k2
      = .error .MissingSignature by rw [getSig, hlk2], errBind]
  · refine cancelFinalizeOk ?_
    rw [cancelWitnessStack_some hws, h11]
    rw [show getPubKeyInstr fromSlice (some (.pushBytes b1)) = .ok k1 by
      rw [getPubKeyInstr, hf1]]
    rw [okBind, show getSig (psbt.inputs.headD default).partial_sigs k1
      = .ok sig1 by rw [getSig, hsig1], okBind, h12]
    rw [show getPubKeyInstr fromSlice (some (.pushBytes b2)) = .ok k2 by
      rw [getPubKeyInstr, hf2]]
    rw [okBind, show getSig (psbt.inputs.headD default).partial_sigs k2
      = .ok sig2 by rw [getSig, hsig2], okBind]
    rfl

/-- Witness for `cancel_finalize_spec`: the fixture PSBT finalizes to the
five-item witness stack. -/
theorem cancel_finalize_spec_witness :
    cancelFinalize (fun bytes => some bytes) cancelPsbt0 =
      (cancelPsbt0Done, .ok ()) := by
  have h := ((cancel_finalize_spec (fun bytes => some bytes)
      cancelPsbt0).2.1 lockScript0 rfl).2.2 [2, 12] [2, 12] rfl rfl
  have h2 := ((h.2 [71] rfl).2 [2, 13] [2, 13] rfl rfl).2 [72] rfl
  exact h2

/-- Finalizing a PSBT whose input 0 already holds the stack its data
recomputes is a no-op. -/
theorem cancelFinalizeSet (fromSlice : List Nat → Option PubKey)
    (psbt : Psbt) (j : PsbtInput) (stack : List (List Nat))
    (hne : psbt.inputs ≠ [])
    (hcw : cancelWitnessStack fromSlice j = .ok stack)
    (hj : j.final_script_witness = some stack) :
    cancelFinalize fromSlice { psbt with inputs := psbt.inputs.set 0 j } =
      ({ psbt with inputs := psbt.inputs.set 0 j }, .ok ()) := by
  obtain ⟨jw, jp, jws, jf, jsh⟩ := j
  dsimp only at hj
  subst hj
  have hhead : ((psbt.inputs.set 0
      (PsbtInput.mk jw jp jws (some stack) jsh)).headD default)
      = PsbtInput.mk jw jp jws (some stack) jsh := by
    rcases hl : psbt.inputs with _ | ⟨a, l⟩
    · exact absurd hl hne
    · rfl
  unfold cancelFinalize
  dsimp only
  rw [hhead, hcw]
  dsimp only
  rw [List.set_set]

/-- C7: `Tx<Cancel>::finalize` is idempotent — when a first call succeeds,
a second call on the result succeeds and leaves it unchanged. -/
theorem cancel_finalize_idem (fromSlice : List Nat → Option PubKey)
    (psbt psbt' : Psbt)
    (h : cancelFinalize fromSlice psbt = (psbt', .ok ())) :
    cancelFinalize fromSlice psbt' = (psbt', .ok ()) := by
  rcases hcw : cancelWitnessStack fromSlice (psbt.inputs.headD default)
    with e | stack
  · rw [cancelFinalizeErr hcw] at h
    exact absurd (congrArg Prod.snd h) (by simp)
  · rw [cancelFinalizeOk hcw] at h
    rw [Prod.mk.injEq] at h
    obtain ⟨h1, -⟩ := h
    subst h1
    have hne : psbt.inputs ≠ [] := by
      intro hnil
      rw [hnil] at hcw
      rw [show cancelWitnessStack fromSlice
        (([] : List PsbtInput).headD default) = .error .MissingWitness
        from rfl] at hcw
      exact Except.noConfusion hcw
    exact cancelFinalizeSet fromSlice psbt
      { psbt.inputs.headD default with final_script_witness := some stack }
      stack hne ((cancelWitnessStack_final_irrel fromSlice
        (psbt.inputs.headD default) (some stack)).trans hcw) rfl

/-- Witness for `cancel_finalize_idem`: finalizing the already-finalized
fixture PSBT is a no-op. -/
theorem cancel_finalize_idem_witness :
    cancelFinalize (fun bytes => some bytes) cancelPsbt0Done =
      (cancelPsbt0Done, .ok ()) :=
  cancel_finalize_idem (fun bytes => some bytes) cancelPsbt0 cancelPsbt0Done
    (by rfl)

end Bitcoin

end Farcaster
